import Mathlib

/-!
# Vehicle motion integrator of `src/main.js`

A shallow embedding of the hand-written logic of `src/main.js`: the key
table, the three input listeners installed by `setupInput`, and the body of
`animate` that updates `currentSpeed` and steers the car node.

Numbers are exact rationals (`ℚ`), so `0.008 * 50 = 0.4` holds on the nose.
The rendering engine is outside the embedding: the car node is reduced to
the two things `animate` does to it, namely the running value of
`rotation.y` and the list of arguments handed to `translateZ`.  The camera
rig and the composer never write to `currentSpeed`, `keys` or the car node
and are left out.
-/

namespace CarDemo

/-! ## Data model -/

/-- The `keys` object, lines 25-30. -/
structure Keys where
  forward : Bool
  backward : Bool
  left : Bool
  right : Bool
  deriving DecidableEq, Repr

/-- The car node as far as `animate` touches it: `rotation.y`, and the
arguments of the calls to `translateZ`, most recent first. -/
structure CarMesh where
  rotationY : ℚ
  translateZCalls : List ℚ
  deriving DecidableEq, Repr

/-- The mutable globals read and written by `animate` and the listeners.
`carMesh` is `none` until the loader callback of line 54 has run. -/
structure World where
  keys : Keys
  currentSpeed : ℚ
  carMesh : Option CarMesh
  deriving DecidableEq, Repr

/-- A JavaScript exception.  The only one the embedded code can raise is the
`ReferenceError` of reading an undeclared identifier. -/
inductive JsError where
  | referenceError (ident : String)
  deriving DecidableEq, Repr

/-! ## Tunables, lines 33-39 -/

def maxSpeed : ℚ := 0.4
def maxReverseSpeed : ℚ := -0.10
def acceleration : ℚ := 0.008
def braking : ℚ := 0.015
def friction : ℚ := 0.003
def turnSpeed : ℚ := 0.04

/-- The state at script start: no key held, `currentSpeed = 0`, no model. -/
def initialWorld : World :=
  { keys := { forward := false, backward := false, left := false, right := false },
    currentSpeed := 0,
    carMesh := none }

/-- `Math.sign` on exact numbers. -/
def mathSign (x : ℚ) : ℚ :=
  if x > 0 then 1 else if x < 0 then -1 else 0

/-- `Math.abs` on exact numbers. -/
def mathAbs (x : ℚ) : ℚ :=
  if x < 0 then -x else x

/-! ## The speed update, lines 116-135 -/

/-- The four arms of the `if / else if / else if / else` chain. -/
inductive Branch where
  | accelerate
  | reverse
  | brake
  | coast
  deriving DecidableEq, Repr

/-- Which arm of the chain of lines 116, 121, 126, 129 is entered. -/
def selectBranch (keys : Keys) (currentSpeed : ℚ) : Branch :=
  if keys.forward then Branch.accelerate
  else if keys.backward then Branch.reverse
  else if (keys.forward && decide (currentSpeed < 0))
      || (keys.backward && decide (currentSpeed > 0)) then Branch.brake
  else Branch.coast

/-- The body of each arm.  The third arm adds `brakingRate` when the speed is
negative and otherwise reads the undeclared identifier `briction`, which
throws.  `brakingRate` stands for the constant `braking`. -/
def runBranch (brakingRate : ℚ) (currentSpeed : ℚ) : Branch → Except JsError ℚ
  | Branch.accelerate =>
      if currentSpeed < maxSpeed then Except.ok (currentSpeed + acceleration)
      else Except.ok currentSpeed
  | Branch.reverse =>
      if currentSpeed > maxReverseSpeed then Except.ok (currentSpeed - acceleration)
      else Except.ok currentSpeed
  | Branch.brake =>
      if currentSpeed < 0 then Except.ok (currentSpeed + brakingRate)
      else Except.error (JsError.referenceError "briction")
  | Branch.coast =>
      if mathAbs currentSpeed > friction then
        Except.ok (currentSpeed - mathSign currentSpeed * friction)
      else Except.ok 0

/-- Lines 116-135 with the braking constant left open. -/
def speedUpdateWith (brakingRate : ℚ) (keys : Keys) (currentSpeed : ℚ) : Except JsError ℚ :=
  runBranch brakingRate currentSpeed (selectBranch keys currentSpeed)

/-- Lines 116-135 as they stand in the source. -/
def speedUpdate (keys : Keys) (currentSpeed : ℚ) : Except JsError ℚ :=
  speedUpdateWith braking keys currentSpeed

/-! ## Moving and steering the node, lines 137-149 -/

/-- Lines 137-139: `translateZ(currentSpeed)` outside the 0.001 dead-zone. -/
def applyTranslate (currentSpeed : ℚ) (m : CarMesh) : CarMesh :=
  if mathAbs currentSpeed > 0.001 then
    { m with translateZCalls := currentSpeed :: m.translateZCalls }
  else m

/-- Lines 143-145. -/
def steerLeft (keys : Keys) (direction : ℚ) (m : CarMesh) : CarMesh :=
  if keys.left then { m with rotationY := m.rotationY + turnSpeed * direction } else m

/-- Lines 146-148. -/
def steerRight (keys : Keys) (direction : ℚ) (m : CarMesh) : CarMesh :=
  if keys.right then { m with rotationY := m.rotationY - turnSpeed * direction } else m

/-- Lines 141-149: steering outside the 0.01 dead-zone. -/
def applySteer (keys : Keys) (currentSpeed : ℚ) (m : CarMesh) : CarMesh :=
  if mathAbs currentSpeed > 0.01 then
    steerRight keys (mathSign currentSpeed) (steerLeft keys (mathSign currentSpeed) m)
  else m

/-- One frame with the braking constant left open: nothing happens to the
vehicle while the model is absent (line 115); otherwise the speed update is
followed by the translation and the steering, both reading the new speed. -/
def animateWith (brakingRate : ℚ) (w : World) : Except JsError World :=
  match w.carMesh with
  | none => Except.ok w
  | some m =>
      match speedUpdateWith brakingRate w.keys w.currentSpeed with
      | Except.error e => Except.error e
      | Except.ok s =>
          Except.ok { w with
            currentSpeed := s,
            carMesh := some (applySteer w.keys s (applyTranslate s m)) }

/-- One frame of `animate`, lines 112-159. -/
def animate (w : World) : Except JsError World :=
  animateWith braking w

/-- Run `n` frames in a row with no input event in between.  A frame that
throws ends the run with its error: the frames the browser would still
schedule after a throw are not followed. -/
def animateN : ℕ → World → Except JsError World
  | 0, w => Except.ok w
  | n + 1, w =>
      match animate w with
      | Except.error e => Except.error e
      | Except.ok w1 => animateN n w1

/-! ## Input listeners, lines 161-186 -/

/-- The `keydown` listener. -/
def onKeyDown (code : String) (w : World) : World :=
  if code = "KeyW" then { w with keys := { w.keys with forward := true } }
  else if code = "KeyS" then { w with keys := { w.keys with backward := true } }
  else if code = "KeyA" then { w with keys := { w.keys with left := true } }
  else if code = "KeyD" then { w with keys := { w.keys with right := true } }
  else w

/-- The `keyup` listener. -/
def onKeyUp (code : String) (w : World) : World :=
  if code = "KeyW" then { w with keys := { w.keys with forward := false } }
  else if code = "KeyS" then { w with keys := { w.keys with backward := false } }
  else if code = "KeyA" then { w with keys := { w.keys with left := false } }
  else if code = "KeyD" then { w with keys := { w.keys with right := false } }
  else w

/-- The `blur` listener, lines 180-185. -/
def onBlur (w : World) : World :=
  { w with keys :=
      { { { { w.keys with forward := false } with backward := false }
          with left := false } with right := false } }

/-- The loader callback of line 54: `carMesh = model`. -/
def onCarLoaded (model : CarMesh) (w : World) : World :=
  { w with carMesh := some model }

/-! ## Reachable speeds -/

/-- Speeds that `currentSpeed` can take: `0` at start, and whatever one more
speed update yields from a reachable speed under some key state. -/
inductive ReachableSpeed : ℚ → Prop where
  | rest : ReachableSpeed 0
  | step (keys : Keys) (s t : ℚ) :
      ReachableSpeed s → speedUpdate keys s = Except.ok t → ReachableSpeed t

/-- Only `forward` held. -/
def forwardOnly : Keys :=
  { forward := true, backward := false, left := false, right := false }

/-- Only `backward` held. -/
def backwardOnly : Keys :=
  { forward := false, backward := true, left := false, right := false }

/-- No key held. -/
def noKeys : Keys :=
  { forward := false, backward := false, left := false, right := false }

/-- The value of `rotation.y`, when the model is present. -/
def heading (w : World) : Option ℚ :=
  w.carMesh.map CarMesh.rotationY

/-- The speed update with the unreachable third arm dropped and no error
channel; `speedUpdateWith_eq` shows it is what `speedUpdateWith` returns. -/
def nextSpeed (keys : Keys) (s : ℚ) : ℚ :=
  if keys.forward then (if s < maxSpeed then s + acceleration else s)
  else if keys.backward then (if s > maxReverseSpeed then s - acceleration else s)
  else if |s| > friction then s - mathSign s * friction
  else 0

/-! ## Basic facts about the embedding -/

theorem mathAbs_eq_abs (x : ℚ) : mathAbs x = |x| := by
  unfold mathAbs
  split_ifs with h
  · exact (abs_of_neg h).symm
  · exact (abs_of_nonneg (not_lt.mp h)).symm

theorem selectBranch_ne_brake (keys : Keys) (s : ℚ) :
    selectBranch keys s ≠ Branch.brake := by
  unfold selectBranch
  cases hf : keys.forward <;> cases hb : keys.backward <;> simp

theorem selectBranch_forward (keys : Keys) (s : ℚ) (h : keys.forward = true) :
    selectBranch keys s = Branch.accelerate := by
  simp [selectBranch, h]

theorem selectBranch_backward (keys : Keys) (s : ℚ) (hf : keys.forward = false)
    (hb : keys.backward = true) : selectBranch keys s = Branch.reverse := by
  simp [selectBranch, hf, hb]

theorem selectBranch_coast (keys : Keys) (s : ℚ) (hf : keys.forward = false)
    (hb : keys.backward = false) : selectBranch keys s = Branch.coast := by
  simp [selectBranch, hf, hb]

theorem speedUpdateWith_eq (b : ℚ) (keys : Keys) (s : ℚ) :
    speedUpdateWith b keys s = Except.ok (nextSpeed keys s) := by
  unfold speedUpdateWith nextSpeed
  cases hf : keys.forward
  · cases hb : keys.backward
    · rw [selectBranch_coast keys s hf hb]
      simp only [runBranch, mathAbs_eq_abs]
      split_ifs <;> simp_all
    · rw [selectBranch_backward keys s hf hb]
      simp only [runBranch]
      split_ifs <;> simp_all
  · rw [selectBranch_forward keys s hf]
    simp only [runBranch]
    split_ifs <;> simp_all

theorem speedUpdate_eq (keys : Keys) (s : ℚ) :
    speedUpdate keys s = Except.ok (nextSpeed keys s) :=
  speedUpdateWith_eq braking keys s

theorem animateWith_some (b : ℚ) (w : World) (m : CarMesh) (hm : w.carMesh = some m) :
    animateWith b w = Except.ok { w with
      currentSpeed := nextSpeed w.keys w.currentSpeed,
      carMesh := some (applySteer w.keys (nextSpeed w.keys w.currentSpeed)
        (applyTranslate (nextSpeed w.keys w.currentSpeed) m)) } := by
  unfold animateWith
  rw [hm]
  simp only [speedUpdateWith_eq]

theorem animateWith_none (b : ℚ) (w : World) (hm : w.carMesh = none) :
    animateWith b w = Except.ok w := by
  unfold animateWith
  rw [hm]

theorem animateN_succ_of_ok (n : ℕ) (w w1 : World) (h : animate w = Except.ok w1) :
    animateN (n + 1) w = animateN n w1 := by
  simp only [animateN, h]

theorem animateN_snoc (n : ℕ) : ∀ (w w1 w2 : World), animateN n w = Except.ok w1 →
    animate w1 = Except.ok w2 → animateN (n + 1) w = Except.ok w2 := by
  induction n with
  | zero =>
      intro w w1 w2 h1 h2
      simp only [animateN] at h1
      cases h1
      simp only [animateN, h2]
  | succ k ih =>
      intro w w1 w2 h1 h2
      cases h : animate w with
      | error e => simp [animateN, h] at h1
      | ok v =>
          rw [animateN_succ_of_ok (k + 1) w v h]
          rw [animateN_succ_of_ok k w v h] at h1
          exact ih v w1 w2 h1 h2

theorem reachable_forward_run (n : ℕ) (hn : n ≤ 50) :
    ReachableSpeed ((n : ℚ) * acceleration) := by
  induction n with
  | zero =>
      have h : (((0 : ℕ) : ℚ) * acceleration) = 0 := by norm_num
      rw [h]
      exact ReachableSpeed.rest
  | succ k ih =>
      have hk : k ≤ 49 := by omega
      have hq : (k : ℚ) ≤ 49 := by exact_mod_cast hk
      refine ReachableSpeed.step forwardOnly _ _ (ih (by omega)) ?_
      rw [speedUpdate_eq]
      have hlt : (k : ℚ) * acceleration < maxSpeed := by
        norm_num [acceleration, maxSpeed]; linarith
      simp only [nextSpeed, forwardOnly, if_true, if_pos hlt]
      push_cast
      congr 1
      ring

theorem animateN_backward_run (n : ℕ) (w : World) (hn : n ≤ 13)
    (hf : w.keys.forward = false) (hb : w.keys.backward = true)
    (hs : w.currentSpeed = 0) (hm : w.carMesh.isSome = true) :
    ∃ w1, animateN n w = Except.ok w1 ∧ w1.keys = w.keys ∧
      w1.carMesh.isSome = true ∧ w1.currentSpeed = -((n : ℚ) * acceleration) := by
  induction n with
  | zero =>
      refine ⟨w, rfl, rfl, hm, ?_⟩
      rw [hs]
      norm_num
  | succ k ih =>
      obtain ⟨w1, hrun, hk1, hm1, hs1⟩ := ih (by omega)
      obtain ⟨m, hm2⟩ := Option.isSome_iff_exists.mp hm1
      have hstep := animateWith_some braking w1 m hm2
      have hk : k ≤ 12 := by omega
      have hq : (k : ℚ) ≤ 12 := by exact_mod_cast hk
      refine ⟨_, animateN_snoc k w w1 _ hrun hstep, hk1, rfl, ?_⟩
      have hgt : -((k : ℚ) * acceleration) > maxReverseSpeed := by
        norm_num [acceleration, maxReverseSpeed]; linarith
      simp only [hk1, hs1, nextSpeed, hf, hb, Bool.false_eq_true, if_false, if_true, if_pos hgt]
      push_cast
      ring

/-! ## Claims -/

/-- C3: with neither `forward` nor `backward` held, one speed update returns
`s - friction` when `s > friction`, `s + friction` when `s < -friction`, and
exactly `0` when `|s| ≤ friction`; the result never has the sign opposite to
`s` and is no larger in magnitude. -/
theorem friction_step (keys : Keys) (s : ℚ)
    (hf : keys.forward = false) (hb : keys.backward = false) :
    ∃ t, speedUpdate keys s = Except.ok t ∧
      (s > friction → t = s - friction) ∧
      (s < -friction → t = s + friction) ∧
      (|s| ≤ friction → t = 0) ∧
      (0 ≤ s → 0 ≤ t) ∧ (s ≤ 0 → t ≤ 0) ∧ |t| ≤ |s| := by
  have hc : nextSpeed keys s =
      if |s| > friction then s - mathSign s * friction else 0 := by
    simp [nextSpeed, hf, hb]
  refine ⟨nextSpeed keys s, speedUpdate_eq keys s, ?_⟩
  rw [hc]
  simp only [mathSign, friction]
  rcases abs_cases s with ⟨ha, hs⟩ | ⟨ha, hs⟩
  · rw [ha]
    split_ifs with h1 h2 h3
    · have h4 : |s - 1 * 0.003| = s - 1 * 0.003 :=
        abs_of_nonneg (by norm_num at h1 ⊢; linarith)
      rw [h4]
      refine ⟨?_, ?_, ?_, ?_, ?_, ?_⟩ <;> intros <;> norm_num at * <;> linarith
    · exfalso; linarith
    · exfalso; norm_num at h1; linarith
    · refine ⟨?_, ?_, ?_, ?_, ?_, ?_⟩ <;> intros <;> norm_num at * <;> linarith
  · rw [ha]
    split_ifs with h1 h2
    · exfalso; linarith
    · have h4 : |s - -1 * 0.003| = -(s - -1 * 0.003) :=
        abs_of_nonpos (by norm_num at h1 ⊢; linarith)
      rw [h4]
      refine ⟨?_, ?_, ?_, ?_, ?_, ?_⟩ <;> intros <;> norm_num at * <;> linarith
    · refine ⟨?_, ?_, ?_, ?_, ?_, ?_⟩ <;> intros <;> norm_num at * <;> linarith

/-- Witness for C3: coasting from `0.4` with no key held gives `0.397`. -/
theorem friction_step_witness :
    ∃ t, speedUpdate noKeys 0.4 = Except.ok t ∧
      ((0.4 : ℚ) > friction → t = 0.4 - friction) ∧
      ((0.4 : ℚ) < -friction → t = 0.4 + friction) ∧
      (|(0.4 : ℚ)| ≤ friction → t = 0) ∧
      (0 ≤ (0.4 : ℚ) → 0 ≤ t) ∧ ((0.4 : ℚ) ≤ 0 → t ≤ 0) ∧ |t| ≤ |(0.4 : ℚ)| :=
  friction_step noKeys 0.4 rfl rfl

/-- C4: from `currentSpeed = 0` with no key held, any number of frames
returns the very same world: the speed stays exactly `0`, no `translateZ`
call is recorded and `rotation.y` is untouched. -/
theorem rest_fixed_point (n : ℕ) (w : World)
    (hk : w.keys = noKeys) (hs : w.currentSpeed = 0) :
    animateN n w = Except.ok w := by
  have h1 : animate w = Except.ok w := by
    obtain ⟨keys, speed, mesh⟩ := w
    simp only at hk hs
    subst hk hs
    cases mesh with
    | none => exact animateWith_none braking _ rfl
    | some m =>
        unfold animate
        rw [animateWith_some braking _ m rfl]
        have h0 : nextSpeed noKeys 0 = 0 := by
          norm_num [nextSpeed, noKeys, friction]
        simp only [h0]
        have h2 : applyTranslate 0 m = m := by
          norm_num [applyTranslate, mathAbs]
        have h3 : applySteer noKeys 0 m = m := by
          norm_num [applySteer, mathAbs]
        rw [h2, h3]
  induction n with
  | zero => rfl
  | succ k ih => rw [animateN_succ_of_ok k w w h1]; exact ih

/-- Witness for C4: a loaded car at rest with no key held, seven frames. -/
theorem rest_fixed_point_witness :
    animateN 7 { keys := noKeys, currentSpeed := 0,
                 carMesh := some { rotationY := 1, translateZCalls := [] } } =
      Except.ok { keys := noKeys, currentSpeed := 0,
                  carMesh := some { rotationY := 1, translateZCalls := [] } } :=
  rest_fixed_point 7 _ rfl rfl

/-- C5: one frame always returns a world, and if the speed it leaves in
`currentSpeed` (the one the steering test of line 141 reads) has magnitude
at most `0.01`, the heading `rotation.y` is the same as before, whatever
keys are held. -/
theorem turn_dead_zone (w : World) :
    ∃ w1, animate w = Except.ok w1 ∧
      (|w1.currentSpeed| ≤ 0.01 → heading w1 = heading w) := by
  cases hm : w.carMesh with
  | none => exact ⟨w, animateWith_none braking w hm, fun _ => rfl⟩
  | some m =>
      refine ⟨_, animateWith_some braking w m hm, ?_⟩
      intro hz
      simp only at hz
      have hn : ¬ mathAbs (nextSpeed w.keys w.currentSpeed) > 0.01 := by
        rw [mathAbs_eq_abs]; exact not_lt.mpr hz
      simp only [heading, hm, Option.map_some', applySteer, if_neg hn, applyTranslate]
      split_ifs <;> rfl

/-- Witness for C5: a loaded car at rest with `left` held; the first frame
leaves the speed at `0` and the heading where it was. -/
theorem turn_dead_zone_witness :
    ∃ w1, animate { keys := { forward := false, backward := false, left := true, right := false },
                    currentSpeed := 0,
                    carMesh := some { rotationY := 2, translateZCalls := [] } } = Except.ok w1 ∧
      w1.currentSpeed = 0 ∧ heading w1 = some 2 := by
  obtain ⟨w1, h1, h2⟩ := turn_dead_zone
    { keys := { forward := false, backward := false, left := true, right := false },
      currentSpeed := 0,
      carMesh := some { rotationY := 2, translateZCalls := [] } }
  have h3 := h1
  unfold animate at h3
  rw [animateWith_some braking _ _ rfl] at h3
  have h0 : nextSpeed { forward := false, backward := false, left := true, right := false } 0
      = 0 := by
    norm_num [nextSpeed, friction]
  simp only [h0] at h3
  cases h3
  refine ⟨_, h1, rfl, ?_⟩
  rw [h2 (by norm_num)]
  rfl

/-- C7, as stated, fails: with `forward` and `backward` both held at speed
`0.4` the first arm of the chain does not accelerate, the second arm is not
tried, and the speed stays `0.4` instead of dropping to `0.392`. -/
theorem reverse_as_else_of_guard_counterexample :
    ¬ (∀ (keys : Keys) (s : ℚ),
        (keys.forward = false ∨ s ≥ maxSpeed) → keys.backward = true →
        s > maxReverseSpeed → speedUpdate keys s = Except.ok (s - acceleration)) := by
  intro h
  have h1 := h { forward := true, backward := true, left := false, right := false } 0.4
    (Or.inr (by norm_num [maxSpeed])) rfl (by norm_num [maxReverseSpeed])
  rw [speedUpdate_eq] at h1
  have h2 : nextSpeed { forward := true, backward := true, left := false, right := false } 0.4
      = 0.4 := by
    norm_num [nextSpeed, maxSpeed]
  rw [h2] at h1
  injection h1 with h3
  norm_num [acceleration] at h3

/-- C7, amended: the reverse arm is the `else` of the test `keys.forward`
alone.  With `forward` not held, `backward` held and the speed above
`maxReverseSpeed`, one update returns `speed - acceleration`; with
`forward` held and the speed at or above `maxSpeed`, the update returns the
speed unchanged whether or not `backward` is held. -/
theorem reverse_when_forward_released (keys : Keys) (s : ℚ) :
    (keys.forward = false → keys.backward = true → s > maxReverseSpeed →
      speedUpdate keys s = Except.ok (s - acceleration)) ∧
    (keys.forward = true → s ≥ maxSpeed → speedUpdate keys s = Except.ok s) := by
  constructor
  · intro hf hb hs
    rw [speedUpdate_eq]
    simp [nextSpeed, hf, hb, hs]
  · intro hf hs
    rw [speedUpdate_eq]
    simp [nextSpeed, hf, not_lt.mpr hs]

/-- Witness for the amended C7: only `backward` held at rest gives `-0.008`;
`forward` and `backward` both held at `0.4` gives `0.4`. -/
theorem reverse_when_forward_released_witness :
    speedUpdate backwardOnly 0 = Except.ok (0 - acceleration) ∧
    speedUpdate { forward := true, backward := true, left := false, right := false } 0.4
      = Except.ok 0.4 :=
  ⟨(reverse_when_forward_released backwardOnly 0).1 rfl rfl (by norm_num [maxReverseSpeed]),
   (reverse_when_forward_released
      { forward := true, backward := true, left := false, right := false } 0.4).2 rfl
      (by norm_num [maxSpeed])⟩

/-- C8: after the `blur` listener all four flags are `false`, whatever they
were, and `currentSpeed` and the car node are what they were. -/
theorem blur_resets_keys (w : World) :
    (onBlur w).keys.forward = false ∧ (onBlur w).keys.backward = false ∧
    (onBlur w).keys.left = false ∧ (onBlur w).keys.right = false ∧
    (onBlur w).currentSpeed = w.currentSpeed ∧ (onBlur w).carMesh = w.carMesh :=
  ⟨rfl, rfl, rfl, rfl, rfl, rfl⟩

/-- C9: the third arm of the chain is never entered; so the speed update and
the whole frame return a result (no `ReferenceError` from `briction`), and
that result is the same for every value of the braking constant. -/
theorem braking_branch_dead (keys : Keys) (s : ℚ) (w : World) :
    selectBranch keys s ≠ Branch.brake ∧
    (∃ t, speedUpdate keys s = Except.ok t ∧
      ∀ b : ℚ, speedUpdateWith b keys s = Except.ok t) ∧
    (∃ w1, animate w = Except.ok w1 ∧ ∀ b : ℚ, animateWith b w = Except.ok w1) := by
  refine ⟨selectBranch_ne_brake keys s,
    ⟨nextSpeed keys s, speedUpdate_eq keys s, fun b => speedUpdateWith_eq b keys s⟩, ?_⟩
  cases hm : w.carMesh with
  | none => exact ⟨w, animateWith_none braking w hm, fun b => animateWith_none b w hm⟩
  | some m =>
      exact ⟨_, animateWith_some braking w m hm, fun b => animateWith_some b w m hm⟩

/-- C1 does not hold of the code.  With the car loaded, pressing `KeyS` at
rest and running thirteen frames leaves `currentSpeed = -0.104`, below
`maxReverseSpeed = -0.10`; and the reachable speed `0.397` (fifty frames of
`forward`, one frame of coasting) is taken by one more `forward` frame to
`0.405`, above `maxSpeed = 0.4`.  Hence the bound
`maxReverseSpeed ≤ speed ≤ maxSpeed` is not an invariant of the update. -/
theorem speed_bound_overshoot :
    (∃ w1, animateN 13 (onKeyDown "KeyS"
        (onCarLoaded { rotationY := 0, translateZCalls := [] } initialWorld)) = Except.ok w1 ∧
      w1.currentSpeed = -0.104 ∧ w1.currentSpeed < maxReverseSpeed) ∧
    (ReachableSpeed 0.397 ∧ speedUpdate forwardOnly 0.397 = Except.ok 0.405 ∧
      (0.405 : ℚ) > maxSpeed) ∧
    ¬ (∀ s : ℚ, ReachableSpeed s → ∀ (keys : Keys) (t : ℚ),
        speedUpdate keys s = Except.ok t → maxReverseSpeed ≤ t ∧ t ≤ maxSpeed) := by
  have hfwd : speedUpdate forwardOnly 0.397 = Except.ok 0.405 := by
    rw [speedUpdate_eq]
    norm_num [nextSpeed, forwardOnly, maxSpeed, acceleration]
  have hreach : ReachableSpeed 0.397 := by
    have h50 := reachable_forward_run 50 (le_refl 50)
    refine ReachableSpeed.step noKeys _ _ h50 ?_
    rw [speedUpdate_eq]
    norm_num [nextSpeed, noKeys, acceleration, friction, mathSign, abs_of_pos]
  refine ⟨?_, ⟨hreach, hfwd, by norm_num [maxSpeed]⟩, ?_⟩
  · obtain ⟨w1, hrun, _, _, hs1⟩ := animateN_backward_run 13
      (onKeyDown "KeyS" (onCarLoaded { rotationY := 0, translateZCalls := [] } initialWorld))
      (le_refl 13) rfl rfl rfl rfl
    have hv : w1.currentSpeed = -0.104 := by
      rw [hs1]; norm_num [acceleration]
    refine ⟨w1, hrun, hv, ?_⟩
    rw [hv]
    norm_num [maxReverseSpeed]
  · intro h
    have h1 := (h 0.397 hreach forwardOnly 0.405 hfwd).2
    norm_num [maxSpeed] at h1

end CarDemo
